import Mathlib

/-!
# Verification of the zhealthcheck reconciliation engine

Shallow embedding of the zhealthcheck program (`app.js`, `lib/cloudflare.js`):
a DNS health-checker that keeps the set of published A records for one
hostname in sync with per-server health probes.

Modelling conventions:
* The mutable per-server map `serverHealth` (keyed by server IP) is modelled
  as a list of `Server × HealthRecord` pairs in configuration order; the
  reconciliation loop resynchronises the `isAssigned` field of every entry
  from the freshly fetched record list before planning, exactly as
  `manageDNSRecords` does (app.js:163-166).
* JavaScript timestamps (`Date.now()`) are integers (`Int`); the JS
  expression `Date.now() - health.lastUnhealthyTime` coerces a `null`
  timestamp to `0`, modelled by `Option.getD 0` (app.js:142).
* `[...servers].sort((a,b) => a.name.localeCompare(b.name))` and
  `actions.sort(comparator)` use JavaScript's stable `Array.prototype.sort`;
  both are modelled with the stable `List.insertionSort` over the
  corresponding total preorder.
* The Cloudflare side effects are modelled by their effect on the record
  list: `createRecord` appends a record whose provider-chosen id is given
  by a fresh-id oracle `newId`, `deleteRecord` removes the record carrying
  the targeted id.  "All actions applied successfully" is the hypothesis
  under which this effect model is exact.
* `makeRequest` (cloudflare.js:13-49) is modelled as a pure loop over an
  oracle giving each attempt's outcome; the returned trace records the
  result, the number of attempts performed and the backoff delays waited.
  The 1000 ms rate-limit spacing is not part of the retry backoff trace.
-/

namespace ZHealth

/-- A configured server: `{name, ip}` entries of the `servers` env variable. -/
structure Server where
  name : String
  ip : String
deriving DecidableEq

/-- Per-server health state, app.js:26-34. -/
structure HealthRecord where
  isHealthy : Bool
  isPrimary : Bool
  lastHealthyTime : Option Int
  lastUnhealthyTime : Option Int
  isAssigned : Bool
deriving DecidableEq

/-- One DNS A record as returned by the provider list call (opaque id plus
IP content; the owning name is fixed and omitted). -/
structure DNSRecord where
  id : String
  content : String
deriving DecidableEq

/-- The two kinds of planned actions, app.js:185-202. -/
inductive ActionType where
  | assign
  | unassign
deriving DecidableEq

/-- A planned action `{type, server, recordId?}`, app.js:185-202. -/
structure Action where
  type : ActionType
  server : Server
  recordId : Option String
deriving DecidableEq

/-- `GRACE_PERIOD_MS = 30 * 1000`, app.js:23. -/
def GRACE_PERIOD_MS : Int := 30 * 1000

/-- Initial health record created for every configured server, app.js:26-34. -/
def initHealthRecord : HealthRecord :=
  { isHealthy := false
    isPrimary := false
    lastHealthyTime := none
    lastUnhealthyTime := none
    isAssigned := false }

/-- Result of one health probe, the value returned by `checkHealth`. -/
structure ProbeResult where
  isHealthy : Bool
  isPrimary : Bool
deriving DecidableEq

/-- Outcome of the single probe HTTP GET (app.js:44-52).  `response` is a
resolved axios response: with the default `validateStatus`, axios resolves
only statuses in 200..299 and rejects everything else, so timeouts,
transport errors and non-2xx statuses all land in `failure` (the catch
block).  The body's role field `isMongoPrimary` is compared with `=== true`
(strict), so any non-`true` or missing value behaves as `some false`/`none`. -/
inductive ProbeOutcome where
  | response (status : Nat) (isMongoPrimary : Option Bool)
  | failure
deriving DecidableEq

/-- Classification performed by `checkHealth`, app.js:36-64:
`isHealthy = (res.status === 200)`, `isPrimary = (res.data?.isMongoPrimary === true)`;
any caught error yields `{isHealthy: false, isPrimary: false}`. -/
def checkHealth : ProbeOutcome → ProbeResult
  | .response status isMongoPrimary =>
      { isHealthy := decide (status = 200)
        isPrimary := decide (isMongoPrimary = some true) }
  | .failure => { isHealthy := false, isPrimary := false }

/-- `updateServerHealth`, app.js:71-88: edge-triggered health transitions;
`isPrimary` is always overwritten. -/
def updateServerHealth (now : Int) (res : ProbeResult) (h : HealthRecord) : HealthRecord :=
  let h1 := { h with isPrimary := res.isPrimary }
  if res.isHealthy && !h1.isHealthy then
    { h1 with lastHealthyTime := some now, isHealthy := true }
  else if !res.isHealthy && h1.isHealthy then
    { h1 with lastUnhealthyTime := some now, isHealthy := false }
  else h1

/-- `Object.values(serverHealth).filter(h => h.isHealthy && !h.isPrimary).length`,
app.js:98-100 (and the identical counts at app.js:124-126 and 193-195). -/
def healthyNonPrimaryCount (hs : List HealthRecord) : Nat :=
  (hs.filter fun h => h.isHealthy && !h.isPrimary).length

/-- `shouldAssignIP`, app.js:90-114. -/
def shouldAssignIP (hs : List HealthRecord) (health : HealthRecord) : Bool :=
  if !health.isHealthy || health.isAssigned then false
  else if health.isPrimary then
    if 0 < healthyNonPrimaryCount hs then false
    else true
  else true

/-- `shouldUnassignIP`, app.js:116-150.  The `health.isPrimary && health.isHealthy`
branch (app.js:123-135) is kept verbatim even though it is unreachable: the
first check already returned `false` whenever `health.isHealthy` holds. -/
def shouldUnassignIP (hs : List HealthRecord) (health : HealthRecord)
    (assignedCount : Nat) (now : Int) : Bool :=
  if !health.isAssigned || health.isHealthy then false
  else if health.isPrimary && health.isHealthy then
    if 0 < healthyNonPrimaryCount hs then true
    else false
  else if assignedCount ≤ 1 then false
  else if now - (health.lastUnhealthyTime.getD 0) < GRACE_PERIOD_MS then false
  else true

/-- The contents of the fetched records; `currentIPs = new Set(...)` is the
set of these strings (app.js:161). -/
def recordContents (records : List DNSRecord) : List String :=
  records.map (·.content)

/-- `currentIPs.size`, app.js:176: the number of distinct record contents. -/
def assignedCountOf (records : List DNSRecord) : Nat :=
  (recordContents records).dedup.length

/-- Resync step, app.js:163-166: `serverHealth[ip].isAssigned = currentIPs.has(ip)`. -/
def resyncState (st : List (Server × HealthRecord)) (records : List DNSRecord) :
    List (Server × HealthRecord) :=
  st.map fun p => (p.1, { p.2 with isAssigned := decide (p.1.ip ∈ recordContents records) })

/-- Lexicographic comparison of character lists by code point. -/
def charListLe : List Char → List Char → Bool
  | [], _ => true
  | _ :: _, [] => false
  | c :: cs, d :: ds =>
    if c.toNat < d.toNat then true
    else if d.toNat < c.toNat then false
    else charListLe cs ds

/-- Name order used by `[...servers].sort((a, b) => a.name.localeCompare(b.name))`,
app.js:180 (lexicographic comparison of the names). -/
def serverLe (p q : Server × HealthRecord) : Prop :=
  charListLe p.1.name.data q.1.name.data = true

instance : DecidableRel serverLe := fun p q =>
  inferInstanceAs (Decidable (charListLe p.1.name.data q.1.name.data = true))

/-- Body of the planning loop, app.js:181-208, acting on the accumulated
`actions` array for a single server. -/
def planStep (hs : List HealthRecord) (records : List DNSRecord)
    (assignedCount : Nat) (now : Int)
    (actions : List Action) (p : Server × HealthRecord) : List Action :=
  let server := p.1
  let health := p.2
  let acts1 :=
    if shouldAssignIP hs health then
      actions ++ [{ type := .assign, server := server, recordId := none }]
    else if shouldUnassignIP hs health assignedCount now then
      match records.find? (fun r => decide (r.content = server.ip)) with
      | some record => actions ++ [{ type := .unassign, server := server, recordId := some record.id }]
      | none => actions
    else actions
  if health.isAssigned && health.isPrimary && health.isHealthy then
    if 0 < healthyNonPrimaryCount hs then
      match records.find? (fun r => decide (r.content = server.ip)) with
      | some record =>
          if acts1.any (fun a => decide (a.type = .unassign) && decide (a.server.ip = server.ip)) then
            acts1
          else
            acts1 ++ [{ type := .unassign, server := server, recordId := some record.id }]
      | none => acts1
    else acts1
  else acts1

/-- Planning phase of `manageDNSRecords`, app.js:161-208: resync assignments
from ground truth, then walk the servers in name order collecting actions. -/
def planActions (st : List (Server × HealthRecord)) (records : List DNSRecord)
    (now : Int) : List Action :=
  (List.insertionSort serverLe (resyncState st records)).foldl
    (planStep ((resyncState st records).map (·.2)) records (assignedCountOf records) now) []

/-- Order imposed by the comparator of `actions.sort(...)`, app.js:211-215:
assigns strictly precede unassigns, everything else ties. -/
def actionLe (a b : Action) : Prop := ¬(a.type = .unassign ∧ b.type = .assign)

instance : DecidableRel actionLe := fun _ _ => instDecidableNot

instance : IsTotal Action actionLe := by
  constructor
  intro a b
  by_cases h : a.type = ActionType.unassign ∧ b.type = ActionType.assign
  · right
    intro h2
    rw [h.2] at h2
    exact absurd h2.1 (by decide)
  · left
    exact h

instance : IsTrans Action actionLe := by
  constructor
  intro a b c hab hbc habc
  cases hb : b.type with
  | assign => exact hab ⟨habc.1, hb⟩
  | unassign => exact hbc ⟨hb, habc.2⟩

/-- `actions.sort(...)`, app.js:210-215: JavaScript's stable sort under the
assign-before-unassign comparator. -/
def sortActions (acts : List Action) : List Action :=
  List.insertionSort actionLe acts

/-- One reconciliation cycle's ordered action batch: plan, then reorder
assigns first (app.js:152-215). -/
def manageDNSRecords (st : List (Server × HealthRecord)) (records : List DNSRecord)
    (now : Int) : List Action :=
  sortActions (planActions st records now)

/-- Effect of executing one action against the provider (app.js:218-230
together with `createRecord`/`deleteRecord`, cloudflare.js:65-107), assuming
the call succeeds: an assign appends a record whose provider-chosen id is
`newId ip`, an unassign deletes the record carrying the targeted id. -/
def applyAction (newId : String → String) (records : List DNSRecord) (a : Action) :
    List DNSRecord :=
  match a.type with
  | .assign => records ++ [{ id := newId a.server.ip, content := a.server.ip }]
  | .unassign => records.filter fun r => !(decide (some r.id = a.recordId))

/-- Effect of executing a whole action batch in order, all calls succeeding. -/
def applyActions (newId : String → String) (records : List DNSRecord)
    (acts : List Action) : List DNSRecord :=
  acts.foldl (applyAction newId) records

/-! ## Cloudflare client: retry and backoff (`lib/cloudflare.js`) -/

/-- Shape of an axios error as inspected by `makeRequest`, cloudflare.js:35-37:
`error.response?.status`, `error.response?.data?.errors?.[0]?.code` and
`error.code` (absent optional-chaining results modelled as `none`). -/
structure JsError where
  status : Option Nat
  cfErrorCode : Option Nat
  code : Option String
deriving DecidableEq

/-- `error.response?.status === 429 || error.response?.data?.errors?.[0]?.code === 10013`,
cloudflare.js:35. -/
def isRateLimitError (e : JsError) : Bool :=
  decide (e.status = some 429) || decide (e.cfErrorCode = some 10013)

/-- `error.response?.status >= 500 && error.response?.status < 600` — with an
absent status the JS comparison is false, cloudflare.js:37. -/
def is5xxError (e : JsError) : Bool :=
  match e.status with
  | some s => decide (500 ≤ s) && decide (s < 600)
  | none => false

/-- `isRetryable`, cloudflare.js:36-37. -/
def isRetryableError (e : JsError) : Bool :=
  isRateLimitError e || decide (e.code = some "ECONNRESET")
    || decide (e.code = some "ETIMEDOUT") || is5xxError e

/-- `this.retryDelays = [1000, 2000, 4000, 8000]`, cloudflare.js:10. -/
def retryDelays : List Nat := [1000, 2000, 4000, 8000]

/-- `maxRetries = this.retryDelays.length`, cloudflare.js:14. -/
def maxRetries : Nat := retryDelays.length

/-- Observable outcome of one `makeRequest` call: the propagated result, the
number of attempts performed, and the backoff delays waited between them. -/
structure RequestTrace (α : Type) where
  result : Except JsError α
  attempts : Nat
  delays : List Nat

/-- The retry loop of `makeRequest`, cloudflare.js:16-48, over an oracle
`outcomes` giving each attempt's result.  The loop runs `attempt` from 0 to
`maxRetries`; the `fuel` argument only bounds the recursion and is chosen
large enough (`maxRetries + 1`) never to run out. -/
def makeRequestGo (outcomes : Nat → Except JsError α) : Nat → Nat → RequestTrace α
  | attempt, 0 => { result := .error ⟨none, none, none⟩, attempts := attempt, delays := [] }
  | attempt, fuel + 1 =>
    match outcomes attempt with
    | .ok v => { result := .ok v, attempts := attempt + 1, delays := [] }
    | .error e =>
      if decide (attempt = maxRetries) || !isRetryableError e then
        { result := .error e, attempts := attempt + 1, delays := [] }
      else
        let t := makeRequestGo outcomes (attempt + 1) fuel
        { result := t.result, attempts := t.attempts,
          delays := retryDelays.getD attempt 0 :: t.delays }

/-- `makeRequest`, cloudflare.js:13-49. -/
def makeRequest (outcomes : Nat → Except JsError α) : RequestTrace α :=
  makeRequestGo outcomes 0 (maxRetries + 1)

/-! ## Planner emission per server

`emitFor` is the batch of actions the loop body appends for one server when
no earlier action in the accumulator concerns the same IP (which is always
the case when server IPs are pairwise distinct); `planStep_eq_append` below
proves the correspondence. -/

/-- Actions appended by the first `if/else if` of the loop body (app.js:184-189). -/
def emitFirst (hs : List HealthRecord) (records : List DNSRecord)
    (assignedCount : Nat) (now : Int) (p : Server × HealthRecord) : List Action :=
  if shouldAssignIP hs p.2 then
    [{ type := .assign, server := p.1, recordId := none }]
  else if shouldUnassignIP hs p.2 assignedCount now then
    match records.find? (fun r => decide (r.content = p.1.ip)) with
    | some record => [{ type := .unassign, server := p.1, recordId := some record.id }]
    | none => []
  else []

/-- Actions emitted for a single server by one pass of the loop body,
assuming no earlier accumulated action carries the same server IP. -/
def emitFor (hs : List HealthRecord) (records : List DNSRecord)
    (assignedCount : Nat) (now : Int) (p : Server × HealthRecord) : List Action :=
  if p.2.isAssigned && p.2.isPrimary && p.2.isHealthy then
    if 0 < healthyNonPrimaryCount hs then
      match records.find? (fun r => decide (r.content = p.1.ip)) with
      | some record =>
          if (emitFirst hs records assignedCount now p).any
              (fun a => decide (a.type = .unassign) && decide (a.server.ip = p.1.ip)) then
            emitFirst hs records assignedCount now p
          else
            emitFirst hs records assignedCount now p
              ++ [{ type := .unassign, server := p.1, recordId := some record.id }]
      | none => emitFirst hs records assignedCount now p
    else emitFirst hs records assignedCount now p
  else emitFirst hs records assignedCount now p

/-! ## Guard characterizations -/

theorem shouldAssignIP_true_iff (hs : List HealthRecord) (h : HealthRecord) :
    shouldAssignIP hs h = true ↔
      h.isHealthy = true ∧ h.isAssigned = false ∧
        (h.isPrimary = false ∨ healthyNonPrimaryCount hs = 0) := by
  rcases h with ⟨he, pr, lh, lu, asg⟩
  cases he <;> cases pr <;> cases asg <;>
    simp [shouldAssignIP] <;> omega

theorem shouldAssignIP_false_of_assigned (hs : List HealthRecord) (h : HealthRecord)
    (ha : h.isAssigned = true) : shouldAssignIP hs h = false := by
  rcases h with ⟨he, pr, lh, lu, asg⟩
  cases asg
  · cases ha
  · cases he <;> simp [shouldAssignIP]

theorem shouldAssignIP_false_of_unhealthy (hs : List HealthRecord) (h : HealthRecord)
    (hh : h.isHealthy = false) : shouldAssignIP hs h = false := by
  rcases h with ⟨he, pr, lh, lu, asg⟩
  cases he
  · simp [shouldAssignIP]
  · cases hh

theorem shouldUnassignIP_false_of_healthy (hs : List HealthRecord) (h : HealthRecord)
    (cnt : Nat) (now : Int) (hh : h.isHealthy = true) :
    shouldUnassignIP hs h cnt now = false := by
  rcases h with ⟨he, pr, lh, lu, asg⟩
  cases he
  · cases hh
  · simp [shouldUnassignIP]

theorem shouldUnassignIP_false_of_unassigned (hs : List HealthRecord) (h : HealthRecord)
    (cnt : Nat) (now : Int) (ha : h.isAssigned = false) :
    shouldUnassignIP hs h cnt now = false := by
  rcases h with ⟨he, pr, lh, lu, asg⟩
  cases asg
  · simp [shouldUnassignIP]
  · cases ha

theorem shouldUnassignIP_unhealthy_iff (hs : List HealthRecord) (h : HealthRecord)
    (cnt : Nat) (now : Int) (hh : h.isHealthy = false) :
    shouldUnassignIP hs h cnt now = true ↔
      h.isAssigned = true ∧ 2 ≤ cnt ∧
        GRACE_PERIOD_MS ≤ now - h.lastUnhealthyTime.getD 0 := by
  rcases h with ⟨he, pr, lh, lu, asg⟩
  cases he
  · cases asg
    · simp [shouldUnassignIP]
    · by_cases hc : cnt ≤ 1
      · simp [shouldUnassignIP, hc]
        omega
      · by_cases hg : now - lu.getD 0 < GRACE_PERIOD_MS <;>
          simp [shouldUnassignIP, hc, hg] <;> omega
  · cases hh

/-! ## Emission lemmas for a single server -/

theorem emitFirst_assign (hs : List HealthRecord) (records : List DNSRecord)
    (cnt : Nat) (now : Int) (p : Server × HealthRecord)
    (hA : shouldAssignIP hs p.2 = true) :
    emitFirst hs records cnt now p = [{ type := .assign, server := p.1, recordId := none }] := by
  unfold emitFirst
  rw [hA]
  simp

theorem emitFirst_quiet (hs : List HealthRecord) (records : List DNSRecord)
    (cnt : Nat) (now : Int) (p : Server × HealthRecord)
    (hA : shouldAssignIP hs p.2 = false)
    (hU : shouldUnassignIP hs p.2 cnt now = false) :
    emitFirst hs records cnt now p = [] := by
  unfold emitFirst
  rw [hA, hU]
  simp

theorem emitFirst_unassign (hs : List HealthRecord) (records : List DNSRecord)
    (cnt : Nat) (now : Int) (p : Server × HealthRecord) (r : DNSRecord)
    (hA : shouldAssignIP hs p.2 = false)
    (hU : shouldUnassignIP hs p.2 cnt now = true)
    (hf : records.find? (fun r => decide (r.content = p.1.ip)) = some r) :
    emitFirst hs records cnt now p
      = [{ type := .unassign, server := p.1, recordId := some r.id }] := by
  unfold emitFirst
  rw [hA, hU, hf]
  simp

theorem emitFirst_server (hs : List HealthRecord) (records : List DNSRecord)
    (cnt : Nat) (now : Int) (p : Server × HealthRecord) :
    ∀ a ∈ emitFirst hs records cnt now p, a.server = p.1 := by
  intro a ha
  unfold emitFirst at ha
  split at ha
  · rw [List.mem_singleton] at ha
    rw [ha]
  · split at ha
    · split at ha
      · rw [List.mem_singleton] at ha
        rw [ha]
      · cases ha
    · cases ha

theorem emitFor_server (hs : List HealthRecord) (records : List DNSRecord)
    (cnt : Nat) (now : Int) (p : Server × HealthRecord) :
    ∀ a ∈ emitFor hs records cnt now p, a.server = p.1 := by
  intro a ha
  unfold emitFor at ha
  split at ha
  · split at ha
    · split at ha
      · split at ha
        · exact emitFirst_server hs records cnt now p a ha
        · rw [List.mem_append] at ha
          rcases ha with ha | ha
          · exact emitFirst_server hs records cnt now p a ha
          · rw [List.mem_singleton] at ha
            rw [ha]
      · exact emitFirst_server hs records cnt now p a ha
    · exact emitFirst_server hs records cnt now p a ha
  · exact emitFirst_server hs records cnt now p a ha

theorem emitFor_healthy_assigned_quiet (hs : List HealthRecord) (records : List DNSRecord)
    (cnt : Nat) (now : Int) (p : Server × HealthRecord)
    (hh : p.2.isHealthy = true) (ha : p.2.isAssigned = true)
    (hp : p.2.isPrimary = false ∨ healthyNonPrimaryCount hs = 0) :
    emitFor hs records cnt now p = [] := by
  have hfirst := emitFirst_quiet hs records cnt now p
    (shouldAssignIP_false_of_assigned hs p.2 ha)
    (shouldUnassignIP_false_of_healthy hs p.2 cnt now hh)
  unfold emitFor
  rcases hp with hp | hp
  · simp [hp, hfirst]
  · simp [hp, hfirst]

theorem emitFor_demote (hs : List HealthRecord) (records : List DNSRecord)
    (cnt : Nat) (now : Int) (p : Server × HealthRecord) (r : DNSRecord)
    (hh : p.2.isHealthy = true) (ha : p.2.isAssigned = true)
    (hp : p.2.isPrimary = true) (hn : 0 < healthyNonPrimaryCount hs)
    (hf : records.find? (fun r => decide (r.content = p.1.ip)) = some r) :
    emitFor hs records cnt now p =
      [{ type := .unassign, server := p.1, recordId := some r.id }] := by
  have hfirst := emitFirst_quiet hs records cnt now p
    (shouldAssignIP_false_of_assigned hs p.2 ha)
    (shouldUnassignIP_false_of_healthy hs p.2 cnt now hh)
  unfold emitFor
  simp [ha, hp, hh, hn, hf, hfirst]

theorem emitFor_assign (hs : List HealthRecord) (records : List DNSRecord)
    (cnt : Nat) (now : Int) (p : Server × HealthRecord)
    (hh : p.2.isHealthy = true) (ha : p.2.isAssigned = false)
    (hp : p.2.isPrimary = false ∨ healthyNonPrimaryCount hs = 0) :
    emitFor hs records cnt now p =
      [{ type := .assign, server := p.1, recordId := none }] := by
  have hA : shouldAssignIP hs p.2 = true :=
    (shouldAssignIP_true_iff hs p.2).mpr ⟨hh, ha, hp⟩
  have hfirst := emitFirst_assign hs records cnt now p hA
  unfold emitFor
  simp [ha, hfirst]

theorem emitFor_healthy_unassigned_primary (hs : List HealthRecord)
    (records : List DNSRecord) (cnt : Nat) (now : Int) (p : Server × HealthRecord)
    (ha : p.2.isAssigned = false) (hp : p.2.isPrimary = true)
    (hn : 0 < healthyNonPrimaryCount hs) :
    emitFor hs records cnt now p = [] := by
  have hA : shouldAssignIP hs p.2 = false := by
    rcases hA : shouldAssignIP hs p.2
    · rfl
    · rcases (shouldAssignIP_true_iff hs p.2).mp hA with ⟨_, _, hp' | hz⟩
      · rw [hp] at hp'
        cases hp'
      · omega
  have hfirst := emitFirst_quiet hs records cnt now p hA
    (shouldUnassignIP_false_of_unassigned hs p.2 cnt now ha)
  unfold emitFor
  simp [ha, hfirst]

theorem emitFor_unhealthy_quiet (hs : List HealthRecord) (records : List DNSRecord)
    (cnt : Nat) (now : Int) (p : Server × HealthRecord)
    (hh : p.2.isHealthy = false)
    (hu : shouldUnassignIP hs p.2 cnt now = false) :
    emitFor hs records cnt now p = [] := by
  have hfirst := emitFirst_quiet hs records cnt now p
    (shouldAssignIP_false_of_unhealthy hs p.2 hh) hu
  unfold emitFor
  simp [hh, hfirst]

theorem emitFor_unhealthy_remove (hs : List HealthRecord) (records : List DNSRecord)
    (cnt : Nat) (now : Int) (p : Server × HealthRecord) (r : DNSRecord)
    (hh : p.2.isHealthy = false)
    (hu : shouldUnassignIP hs p.2 cnt now = true)
    (hf : records.find? (fun r => decide (r.content = p.1.ip)) = some r) :
    emitFor hs records cnt now p =
      [{ type := .unassign, server := p.1, recordId := some r.id }] := by
  have hA := shouldAssignIP_false_of_unhealthy hs p.2 hh
  have hfirst := emitFirst_unassign hs records cnt now p r hA hu hf
  unfold emitFor
  simp [hh, hfirst]

/-! ## The planning loop as a flatMap over servers -/

theorem planStep_eq_append (hs : List HealthRecord) (records : List DNSRecord)
    (cnt : Nat) (now : Int) (acc : List Action) (p : Server × HealthRecord)
    (hacc : ∀ a ∈ acc, a.server.ip ≠ p.1.ip) :
    planStep hs records cnt now acc p = acc ++ emitFor hs records cnt now p := by
  have hanyacc : acc.any
      (fun a => decide (a.type = ActionType.unassign) && decide (a.server.ip = p.1.ip)) = false := by
    rw [List.any_eq_false]
    intro a ha
    simp [hacc a ha]
  unfold planStep emitFor emitFirst
  by_cases hA : shouldAssignIP hs p.2 = true <;>
    by_cases hU : shouldUnassignIP hs p.2 cnt now = true <;>
      cases hf : records.find? (fun r => decide (r.content = p.1.ip)) <;>
        by_cases hG : (p.2.isAssigned && p.2.isPrimary && p.2.isHealthy) = true <;>
          by_cases hN : 0 < healthyNonPrimaryCount hs <;>
            simp [hA, hU, hf, hG, hN, List.any_append, hanyacc, List.append_assoc]

theorem foldl_planStep (hs : List HealthRecord) (records : List DNSRecord)
    (cnt : Nat) (now : Int) :
    ∀ (l : List (Server × HealthRecord)) (acc : List Action),
      (l.map (fun p => p.1.ip)).Nodup →
      (∀ a ∈ acc, ∀ p ∈ l, a.server.ip ≠ p.1.ip) →
      l.foldl (planStep hs records cnt now) acc
        = acc ++ l.flatMap (emitFor hs records cnt now) := by
  intro l
  induction l with
  | nil =>
    intro acc _ _
    simp
  | cons p l ih =>
    intro acc hnd hacc
    rw [List.map_cons, List.nodup_cons] at hnd
    rw [List.foldl_cons,
      planStep_eq_append hs records cnt now acc p
        (fun a ha => hacc a ha p (List.mem_cons_self p l)),
      ih (acc ++ emitFor hs records cnt now p) hnd.2 ?_,
      List.flatMap_cons, List.append_assoc]
    intro a ha q hq
    rcases List.mem_append.mp ha with ha | ha
    · exact hacc a ha q (List.mem_cons_of_mem p hq)
    · rw [emitFor_server hs records cnt now p a ha]
      intro hip
      exact hnd.1 (hip ▸ List.mem_map_of_mem (fun p => p.1.ip) hq)

theorem resyncState_map_ip (st : List (Server × HealthRecord)) (records : List DNSRecord) :
    (resyncState st records).map (fun p => p.1.ip) = st.map (fun p => p.1.ip) := by
  unfold resyncState
  rw [List.map_map]
  rfl

theorem mem_resyncState (st : List (Server × HealthRecord)) (records : List DNSRecord)
    (p : Server × HealthRecord) :
    p ∈ resyncState st records ↔
      ∃ q ∈ st,
        p = (q.1, { q.2 with isAssigned := decide (q.1.ip ∈ recordContents records) }) := by
  unfold resyncState
  rw [List.mem_map]
  constructor
  · rintro ⟨q, hq, rfl⟩
    exact ⟨q, hq, rfl⟩
  · rintro ⟨q, hq, rfl⟩
    exact ⟨q, hq, rfl⟩

theorem healthyNonPrimaryCount_congr (st : List (Server × HealthRecord))
    (f : Server × HealthRecord → HealthRecord)
    (hf1 : ∀ p, (f p).isHealthy = p.2.isHealthy)
    (hf2 : ∀ p, (f p).isPrimary = p.2.isPrimary) :
    healthyNonPrimaryCount (st.map f) = healthyNonPrimaryCount (st.map (fun p => p.2)) := by
  induction st with
  | nil => rfl
  | cons p st ih =>
    unfold healthyNonPrimaryCount at *
    simp only [List.map_cons, List.filter_cons]
    rw [hf1 p, hf2 p]
    by_cases hc : (p.2.isHealthy && !p.2.isPrimary) = true
    · rw [if_pos hc, if_pos hc]
      simp [ih]
    · rw [if_neg hc, if_neg hc]
      exact ih

theorem healthyNonPrimaryCount_resync (st : List (Server × HealthRecord))
    (records : List DNSRecord) :
    healthyNonPrimaryCount ((resyncState st records).map (fun p => p.2))
      = healthyNonPrimaryCount (st.map (fun p => p.2)) := by
  unfold resyncState
  rw [List.map_map]
  exact healthyNonPrimaryCount_congr st _ (fun p => rfl) (fun p => rfl)

theorem planActions_eq_flatMap (st : List (Server × HealthRecord))
    (records : List DNSRecord) (now : Int)
    (hips : (st.map (fun p => p.1.ip)).Nodup) :
    planActions st records now
      = (List.insertionSort serverLe (resyncState st records)).flatMap
          (emitFor ((resyncState st records).map (fun p => p.2)) records
            (assignedCountOf records) now) := by
  unfold planActions
  have hperm :
      List.Perm
        ((List.insertionSort serverLe (resyncState st records)).map (fun p => p.1.ip))
        ((resyncState st records).map (fun p => p.1.ip)) :=
    (List.perm_insertionSort serverLe (resyncState st records)).map (fun p => p.1.ip)
  apply foldl_planStep
  · rw [hperm.nodup_iff, resyncState_map_ip]
    exact hips
  · intro a ha
    cases ha

theorem eq_of_mem_of_ip_eq {l : List (Server × HealthRecord)}
    (hnd : (l.map (fun p => p.1.ip)).Nodup) {p q : Server × HealthRecord}
    (hp : p ∈ l) (hq : q ∈ l) (hip : p.1.ip = q.1.ip) : p = q :=
  List.inj_on_of_nodup_map hnd hp hq hip

/-! ## Record bookkeeping helpers -/

theorem mem_recordContents (records : List DNSRecord) (x : String) :
    x ∈ recordContents records ↔ ∃ r ∈ records, r.content = x := by
  unfold recordContents
  rw [List.mem_map]

theorem find?_content_isSome (records : List DNSRecord) (ip : String)
    (h : ip ∈ recordContents records) :
    ∃ r, records.find? (fun r => decide (r.content = ip)) = some r := by
  have hsome : (records.find? (fun r => decide (r.content = ip))).isSome := by
    rw [List.find?_isSome]
    rcases (mem_recordContents records ip).mp h with ⟨r, hr, hc⟩
    exact ⟨r, hr, by simp [hc]⟩
  exact Option.isSome_iff_exists.mp hsome

theorem find?_content_prop {records : List DNSRecord} {ip : String} {r : DNSRecord}
    (h : records.find? (fun r => decide (r.content = ip)) = some r) :
    r ∈ records ∧ r.content = ip := by
  refine ⟨List.mem_of_find?_eq_some h, ?_⟩
  have := List.find?_some h
  simpa using this

/-! ## Effect of executed action batches on the record set -/

theorem applyActions_cons (newId : String → String) (recs : List DNSRecord)
    (a : Action) (acts : List Action) :
    applyActions newId recs (a :: acts) = applyActions newId (applyAction newId recs a) acts :=
  rfl

theorem applyActions_mem_of_mem (newId : String → String) :
    ∀ (acts : List Action) (recs : List DNSRecord) (r0 : DNSRecord),
      r0 ∈ recs →
      (∀ a ∈ acts, a.type = ActionType.unassign → a.recordId ≠ some r0.id) →
      r0 ∈ applyActions newId recs acts := by
  intro acts
  induction acts with
  | nil =>
    intro recs r0 h _
    exact h
  | cons a acts ih =>
    intro recs r0 h hno
    rw [applyActions_cons]
    apply ih
    · unfold applyAction
      cases hat : a.type
      · exact List.mem_append_left _ h
      · rw [List.mem_filter]
        refine ⟨h, ?_⟩
        have h1 := hno a (List.mem_cons_self a acts) hat
        have h2 : ¬(some r0.id = a.recordId) := fun hh => h1 hh.symm
        simp [h2]
    · intro b hb hbt
      exact hno b (List.mem_cons_of_mem a hb) hbt

theorem applyActions_mem_created (newId : String → String) :
    ∀ (acts : List Action) (recs : List DNSRecord) (a0 : Action),
      a0 ∈ acts → a0.type = ActionType.assign →
      (∀ b ∈ acts, b.type = ActionType.unassign → b.recordId ≠ some (newId a0.server.ip)) →
      ({ id := newId a0.server.ip, content := a0.server.ip } : DNSRecord)
        ∈ applyActions newId recs acts := by
  intro acts
  induction acts with
  | nil =>
    intro recs a0 h
    cases h
  | cons a acts ih =>
    intro recs a0 hmem hty hno
    rw [applyActions_cons]
    rcases List.mem_cons.mp hmem with rfl | hmem
    · apply applyActions_mem_of_mem
      · unfold applyAction
        rw [hty]
        exact List.mem_append_right _ (List.mem_singleton.mpr rfl)
      · intro b hb hbt
        exact hno b (List.mem_cons_of_mem a0 hb) hbt
    · exact ih _ a0 hmem hty (fun b hb hbt => hno b (List.mem_cons_of_mem a hb) hbt)

theorem applyActions_mem_cases (newId : String → String) :
    ∀ (acts : List Action) (recs : List DNSRecord) (r1 : DNSRecord),
      r1 ∈ applyActions newId recs acts →
      r1 ∈ recs ∨ ∃ a ∈ acts, a.type = ActionType.assign ∧
        r1 = { id := newId a.server.ip, content := a.server.ip } := by
  intro acts
  induction acts with
  | nil =>
    intro recs r1 h
    exact Or.inl h
  | cons a acts ih =>
    intro recs r1 h
    rw [applyActions_cons] at h
    rcases ih _ r1 h with h1 | ⟨b, hb, hbt, rfl⟩
    · unfold applyAction at h1
      cases hat : a.type <;> rw [hat] at h1
      · rcases List.mem_append.mp h1 with h1 | h1
        · exact Or.inl h1
        · exact Or.inr ⟨a, List.mem_cons_self a acts, hat, List.mem_singleton.mp h1⟩
      · exact Or.inl (List.mem_filter.mp h1).1
    · exact Or.inr ⟨b, List.mem_cons_of_mem a hb, hbt, rfl⟩

theorem applyActions_id_absent (newId : String → String) :
    ∀ (acts : List Action) (recs : List DNSRecord) (rid : String),
      (∀ r ∈ recs, r.id ≠ rid) → (∀ ip, newId ip ≠ rid) →
      ∀ r1 ∈ applyActions newId recs acts, r1.id ≠ rid := by
  intro acts
  induction acts with
  | nil =>
    intro recs rid habs _ r1 h
    exact habs r1 h
  | cons a acts ih =>
    intro recs rid habs hfresh r1 h
    rw [applyActions_cons] at h
    apply ih (applyAction newId recs a) rid ?_ hfresh r1 h
    intro r hr
    unfold applyAction at hr
    cases hat : a.type <;> rw [hat] at hr
    · rcases List.mem_append.mp hr with hr | hr
      · exact habs r hr
      · rw [List.mem_singleton.mp hr]
        exact hfresh a.server.ip
    · exact habs r (List.mem_filter.mp hr).1

theorem applyActions_removed (newId : String → String) :
    ∀ (acts : List Action) (recs : List DNSRecord) (rid : String),
      (∃ a ∈ acts, a.type = ActionType.unassign ∧ a.recordId = some rid) →
      (∀ ip, newId ip ≠ rid) →
      ∀ r1 ∈ applyActions newId recs acts, r1.id ≠ rid := by
  intro acts
  induction acts with
  | nil =>
    rintro recs rid ⟨a, ha, _⟩ _
    cases ha
  | cons a acts ih =>
    rintro recs rid ⟨b, hb, hbt, hbid⟩ hfresh r1 hr1
    rcases List.mem_cons.mp hb with rfl | hb
    · rw [applyActions_cons] at hr1
      apply applyActions_id_absent newId acts (applyAction newId recs b) rid ?_ hfresh r1 hr1
      intro r hr
      unfold applyAction at hr
      rw [hbt] at hr
      have hcond := (List.mem_filter.mp hr).2
      intro hid
      rw [hbid, ← hid] at hcond
      simp at hcond
    · rw [applyActions_cons] at hr1
      exact ih _ rid ⟨b, hb, hbt, hbid⟩ hfresh r1 hr1

/-! ## Characterizing which actions the planner emits -/

theorem emitFirst_mem_split (hs : List HealthRecord) (records : List DNSRecord)
    (cnt : Nat) (now : Int) (p : Server × HealthRecord) (a : Action)
    (ha : a ∈ emitFirst hs records cnt now p) :
    (shouldAssignIP hs p.2 = true ∧ a = { type := .assign, server := p.1, recordId := none }) ∨
      (shouldAssignIP hs p.2 = false ∧ shouldUnassignIP hs p.2 cnt now = true ∧
        ∃ r, records.find? (fun r => decide (r.content = p.1.ip)) = some r ∧
          a = { type := .unassign, server := p.1, recordId := some r.id }) := by
  unfold emitFirst at ha
  by_cases hA : shouldAssignIP hs p.2 = true
  · rw [if_pos hA] at ha
    exact Or.inl ⟨hA, List.mem_singleton.mp ha⟩
  · rw [if_neg hA] at ha
    by_cases hU : shouldUnassignIP hs p.2 cnt now = true
    · rw [if_pos hU] at ha
      cases hf : records.find? (fun r => decide (r.content = p.1.ip)) <;>
        rw [hf] at ha <;> dsimp only at ha
      · cases ha
      · exact Or.inr ⟨Bool.eq_false_iff.mpr hA, hU, _, rfl, List.mem_singleton.mp ha⟩
    · rw [if_neg hU] at ha
      cases ha

theorem emitFor_mem_split (hs : List HealthRecord) (records : List DNSRecord)
    (cnt : Nat) (now : Int) (p : Server × HealthRecord) (a : Action)
    (ha : a ∈ emitFor hs records cnt now p) :
    a ∈ emitFirst hs records cnt now p ∨
      ((p.2.isAssigned && p.2.isPrimary && p.2.isHealthy) = true ∧
        0 < healthyNonPrimaryCount hs ∧
        ∃ r, records.find? (fun r => decide (r.content = p.1.ip)) = some r ∧
          a = { type := .unassign, server := p.1, recordId := some r.id }) := by
  unfold emitFor at ha
  by_cases hG : (p.2.isAssigned && p.2.isPrimary && p.2.isHealthy) = true
  · rw [if_pos hG] at ha
    by_cases hN : 0 < healthyNonPrimaryCount hs
    · rw [if_pos hN] at ha
      cases hf : records.find? (fun r => decide (r.content = p.1.ip)) <;>
        rw [hf] at ha <;> dsimp only at ha
      · exact Or.inl ha
      · by_cases hD : (emitFirst hs records cnt now p).any
            (fun a => decide (a.type = ActionType.unassign) && decide (a.server.ip = p.1.ip)) = true
        · rw [if_pos hD] at ha
          exact Or.inl ha
        · rw [if_neg hD] at ha
          rcases List.mem_append.mp ha with ha | ha
          · exact Or.inl ha
          · exact Or.inr ⟨hG, hN, _, rfl, List.mem_singleton.mp ha⟩
    · rw [if_neg hN] at ha
      exact Or.inl ha
  · rw [if_neg hG] at ha
    exact Or.inl ha

theorem mem_planActions (st : List (Server × HealthRecord)) (records : List DNSRecord)
    (now : Int) (hips : (st.map (fun p => p.1.ip)).Nodup) (a : Action) :
    a ∈ planActions st records now ↔
      ∃ p ∈ resyncState st records,
        a ∈ emitFor ((resyncState st records).map (fun p => p.2)) records
          (assignedCountOf records) now p := by
  rw [planActions_eq_flatMap st records now hips, List.mem_flatMap]
  constructor
  · rintro ⟨p, hp, hap⟩
    exact ⟨p, ((List.perm_insertionSort serverLe _).mem_iff).mp hp, hap⟩
  · rintro ⟨p, hp, hap⟩
    exact ⟨p, ((List.perm_insertionSort serverLe _).mem_iff).mpr hp, hap⟩

theorem resyncState_ips_nodup (st : List (Server × HealthRecord)) (records : List DNSRecord)
    (hips : (st.map (fun p => p.1.ip)).Nodup) :
    ((resyncState st records).map (fun p => p.1.ip)).Nodup := by
  rw [resyncState_map_ip]
  exact hips

theorem hasAssign_iff (st : List (Server × HealthRecord)) (records : List DNSRecord)
    (now : Int) (hips : (st.map (fun p => p.1.ip)).Nodup)
    {s : Server} {h : HealthRecord} (hmem : (s, h) ∈ st) :
    (∃ a ∈ planActions st records now, a.type = ActionType.assign ∧ a.server.ip = s.ip) ↔
      shouldAssignIP ((resyncState st records).map (fun p => p.2))
        { h with isAssigned := decide (s.ip ∈ recordContents records) } = true := by
  set hs1 := (resyncState st records).map (fun p => p.2) with hhs1
  set h1 : HealthRecord := { h with isAssigned := decide (s.ip ∈ recordContents records) } with hh1
  have hmem1 : (s, h1) ∈ resyncState st records :=
    (mem_resyncState st records (s, h1)).mpr ⟨(s, h), hmem, rfl⟩
  constructor
  · rintro ⟨a, ha, hat, haip⟩
    rcases (mem_planActions st records now hips a).mp ha with ⟨p, hp, hap⟩
    have hserver := emitFor_server hs1 records (assignedCountOf records) now p a hap
    have hpeq : p = (s, h1) := by
      apply eq_of_mem_of_ip_eq (resyncState_ips_nodup st records hips) hp hmem1
      rw [← hserver, haip]
    rw [hpeq] at hap
    rcases emitFor_mem_split hs1 records (assignedCountOf records) now (s, h1) a hap with hfi | ⟨_, _, _, _, haeq⟩
    · rcases emitFirst_mem_split hs1 records (assignedCountOf records) now (s, h1) a hfi with
        ⟨hA, _⟩ | ⟨_, _, _, _, haeq⟩
      · exact hA
      · rw [haeq] at hat
        cases hat
    · rw [haeq] at hat
      cases hat
  · intro hA
    refine ⟨{ type := .assign, server := s, recordId := none }, ?_, rfl, rfl⟩
    rw [mem_planActions st records now hips]
    refine ⟨(s, h1), hmem1, ?_⟩
    have hiff := shouldAssignIP_true_iff hs1 h1
    rcases hiff.mp hA with ⟨hh, ha, hp⟩
    rw [emitFor_assign hs1 records (assignedCountOf records) now (s, h1) hh ha hp]
    exact List.mem_singleton.mpr rfl

theorem hasUnassign_iff (st : List (Server × HealthRecord)) (records : List DNSRecord)
    (now : Int) (hips : (st.map (fun p => p.1.ip)).Nodup)
    {s : Server} {h : HealthRecord} (hmem : (s, h) ∈ st) :
    (∃ a ∈ planActions st records now, a.type = ActionType.unassign ∧ a.server.ip = s.ip) ↔
      ({ h with isAssigned := decide (s.ip ∈ recordContents records) } : HealthRecord).isAssigned = true ∧
        (shouldUnassignIP ((resyncState st records).map (fun p => p.2))
            { h with isAssigned := decide (s.ip ∈ recordContents records) }
            (assignedCountOf records) now = true ∨
          (h.isPrimary = true ∧ h.isHealthy = true ∧
            0 < healthyNonPrimaryCount ((resyncState st records).map (fun p => p.2)))) := by
  set hs1 := (resyncState st records).map (fun p => p.2) with hhs1
  set h1 : HealthRecord := { h with isAssigned := decide (s.ip ∈ recordContents records) } with hh1
  have hmem1 : (s, h1) ∈ resyncState st records :=
    (mem_resyncState st records (s, h1)).mpr ⟨(s, h), hmem, rfl⟩
  constructor
  · rintro ⟨a, ha, hat, haip⟩
    rcases (mem_planActions st records now hips a).mp ha with ⟨p, hp, hap⟩
    have hserver := emitFor_server hs1 records (assignedCountOf records) now p a hap
    have hpeq : p = (s, h1) := by
      apply eq_of_mem_of_ip_eq (resyncState_ips_nodup st records hips) hp hmem1
      rw [← hserver, haip]
    rw [hpeq] at hap
    rcases emitFor_mem_split hs1 records (assignedCountOf records) now (s, h1) a hap with hfi | ⟨hG, hN, _, _, _⟩
    · rcases emitFirst_mem_split hs1 records (assignedCountOf records) now (s, h1) a hfi with
        ⟨_, haeq⟩ | ⟨_, hU, _, _, _⟩
      · rw [haeq] at hat
        cases hat
      · have hassigned : h1.isAssigned = true := by
          rcases hA : h1.isAssigned
          · rw [shouldUnassignIP_false_of_unassigned hs1 h1 (assignedCountOf records) now hA] at hU
            cases hU
          · rfl
        exact ⟨hassigned, Or.inl hU⟩
    · simp only [Bool.and_eq_true] at hG
      exact ⟨hG.1.1, Or.inr ⟨hG.1.2, hG.2, hN⟩⟩
  · rintro ⟨hassigned, hcase⟩
    have hfind : ∃ r, records.find? (fun r => decide (r.content = s.ip)) = some r := by
      apply find?_content_isSome
      have : decide (s.ip ∈ recordContents records) = true := hassigned
      exact of_decide_eq_true this
    rcases hfind with ⟨r, hr⟩
    rcases hcase with hU | ⟨hp, hh, hN⟩
    · have hh : h1.isHealthy = false := by
        rcases hhl : h1.isHealthy
        · rfl
        · rw [shouldUnassignIP_false_of_healthy hs1 h1 (assignedCountOf records) now hhl] at hU
          cases hU
      refine ⟨{ type := .unassign, server := s, recordId := some r.id }, ?_, rfl, rfl⟩
      rw [mem_planActions st records now hips]
      refine ⟨(s, h1), hmem1, ?_⟩
      rw [emitFor_unhealthy_remove hs1 records (assignedCountOf records) now (s, h1) r hh hU hr]
      exact List.mem_singleton.mpr rfl
    · refine ⟨{ type := .unassign, server := s, recordId := some r.id }, ?_, rfl, rfl⟩
      rw [mem_planActions st records now hips]
      refine ⟨(s, h1), hmem1, ?_⟩
      rw [emitFor_demote hs1 records (assignedCountOf records) now (s, h1) r hh hassigned hp hN hr]
      exact List.mem_singleton.mpr rfl

/-! ## Claim theorems -/

/-- C3: an assigned, unhealthy, non-primary server that went unhealthy at time `T`
is eligible for removal (`shouldUnassignIP` returns true) exactly when the planning
time `now` satisfies `T + 30s ≤ now`, provided its removal leaves at least one
assigned record (`2 ≤ assignedCount`); before that instant it is ineligible. -/
theorem c3_grace_boundary (hs : List HealthRecord) (h : HealthRecord) (cnt : Nat)
    (now T : Int)
    (hassigned : h.isAssigned = true) (hunhealthy : h.isHealthy = false)
    (hnonprimary : h.isPrimary = false) (hT : h.lastUnhealthyTime = some T)
    (hfloor : 2 ≤ cnt) :
    shouldUnassignIP hs h cnt now = true ↔ T + GRACE_PERIOD_MS ≤ now := by
  rw [shouldUnassignIP_unhealthy_iff hs h cnt now hunhealthy, hT]
  simp only [hassigned, hfloor, Option.getD_some, true_and]
  unfold GRACE_PERIOD_MS
  omega

/-- Witness for C3 at a concrete input: a server unhealthy since `T = 0` is
eligible exactly at `now = 30000`. -/
theorem c3_grace_boundary_witness :
    shouldUnassignIP []
      { isHealthy := false, isPrimary := false, lastHealthyTime := none,
        lastUnhealthyTime := some 0, isAssigned := true } 2 30000 = true
      ↔ (0 : Int) + GRACE_PERIOD_MS ≤ 30000 :=
  c3_grace_boundary [] _ 2 30000 0 rfl rfl rfl rfl (by norm_num)

/-- C4: `shouldAssignIP` returns true iff the server is healthy, not assigned,
and either not primary-flagged or no healthy non-primary server exists; in
particular a primary-flagged server is never assignable while a healthy
non-primary server exists. -/
theorem c4_assign_eligibility (hs : List HealthRecord) (h : HealthRecord) :
    (shouldAssignIP hs h = true ↔
        h.isHealthy = true ∧ h.isAssigned = false ∧
          (h.isPrimary = false ∨ healthyNonPrimaryCount hs = 0)) ∧
      (h.isPrimary = true → 0 < healthyNonPrimaryCount hs → shouldAssignIP hs h = false) := by
  refine ⟨shouldAssignIP_true_iff hs h, ?_⟩
  intro hp hn
  rcases hA : shouldAssignIP hs h
  · rfl
  · rcases (shouldAssignIP_true_iff hs h).mp hA with ⟨_, _, hcase | hcase⟩
    · rw [hp] at hcase
      cases hcase
    · omega

/-- Witness for C4 at a concrete input: a healthy unassigned primary server is
not assignable while a healthy non-primary server exists. -/
theorem c4_assign_eligibility_witness :
    shouldAssignIP
      [{ isHealthy := true, isPrimary := false, lastHealthyTime := none,
         lastUnhealthyTime := none, isAssigned := true }]
      { isHealthy := true, isPrimary := true, lastHealthyTime := none,
        lastUnhealthyTime := none, isAssigned := false } = false :=
  (c4_assign_eligibility _ _).2 rfl (by decide)

/-- C10: a server never seen healthy keeps `lastUnhealthyTime = null`
(`updateServerHealth` on an unhealthy probe from the initial record leaves it
`none`), and `shouldUnassignIP` then computes the elapsed time as
`now - 0` (the JS `Date.now() - null` coercion), so at any realistic clock
instant (`now ≥ 30000` ms since epoch) an assigned such server is eligible
for removal with no grace delay, provided the assigned count is at least 2. -/
theorem c10_null_unhealthy_time_no_grace :
    (∀ (now : Int) (p : Bool),
        (updateServerHealth now { isHealthy := false, isPrimary := p }
          initHealthRecord).lastUnhealthyTime = none) ∧
      ∀ (hs : List HealthRecord) (h : HealthRecord) (cnt : Nat) (now : Int),
        h.isAssigned = true → h.isHealthy = false → h.lastUnhealthyTime = none →
        2 ≤ cnt → GRACE_PERIOD_MS ≤ now →
        shouldUnassignIP hs h cnt now = true := by
  constructor
  · intro now p
    rfl
  · intro hs h cnt now ha hh hlu hcnt hnow
    rw [shouldUnassignIP_unhealthy_iff hs h cnt now hh, hlu]
    refine ⟨ha, hcnt, ?_⟩
    simpa using hnow

/-- Witness for C10 at a concrete input. -/
theorem c10_null_unhealthy_time_no_grace_witness :
    (updateServerHealth 5 { isHealthy := false, isPrimary := false }
        initHealthRecord).lastUnhealthyTime = none ∧
      shouldUnassignIP []
        { isHealthy := false, isPrimary := false, lastHealthyTime := none,
          lastUnhealthyTime := none, isAssigned := true } 2 30000 = true :=
  ⟨c10_null_unhealthy_time_no_grace.1 5 false,
    c10_null_unhealthy_time_no_grace.2 [] _ 2 30000 rfl rfl rfl (by norm_num) (by decide)⟩

/-- C9 counterexample: a resolved 201 response whose body carries
`isMongoPrimary: true` is classified `healthy = false` but `isPrimary = true`,
refuting "any non-200 status ⇒ healthy=false with isPrimary=false". -/
theorem c9_counterexample :
    (checkHealth (ProbeOutcome.response 201 (some true))).isHealthy = false ∧
      (checkHealth (ProbeOutcome.response 201 (some true))).isPrimary = true := by
  constructor <;> rfl

/-- C9 (amended): a resolved response is healthy iff its status is exactly 200,
while `isPrimary` is computed from the body's `isMongoPrimary === true` for
every resolved (2xx) response regardless of status; timeouts, transport errors
and rejected (non-2xx) statuses classify as `healthy=false, isPrimary=false`. -/
theorem c9_probe_classification (status : Nat) (body : Option Bool) :
    ((checkHealth (ProbeOutcome.response status body)).isHealthy = true ↔ status = 200) ∧
      ((checkHealth (ProbeOutcome.response status body)).isPrimary = true ↔ body = some true) ∧
      checkHealth ProbeOutcome.failure = { isHealthy := false, isPrimary := false } := by
  refine ⟨?_, ?_, rfl⟩ <;> simp [checkHealth]

/-- Witness for C9 (amended) at a concrete input. -/
theorem c9_probe_classification_witness :
    (checkHealth (ProbeOutcome.response 200 none)).isHealthy = true :=
  (c9_probe_classification 200 none).1.mpr rfl

/-- C6: in the batch actually issued by a cycle (`manageDNSRecords`, after the
`actions.sort` of app.js:210-215), every assign action precedes every unassign
action: whenever an earlier element is an unassign, all later elements are
unassigns too. -/
theorem c6_assigns_before_unassigns (st : List (Server × HealthRecord))
    (records : List DNSRecord) (now : Int) :
    (manageDNSRecords st records now).Pairwise
      (fun a b => a.type = ActionType.unassign → b.type = ActionType.unassign) := by
  unfold manageDNSRecords sortActions
  refine (List.sorted_insertionSort actionLe (planActions st records now)).imp ?_
  intro a b hab hat
  rcases hbt : b.type
  · exact absurd ⟨hat, hbt⟩ hab
  · rfl

/-- Witness for C6 at a concrete input (a batch containing both kinds). -/
theorem c6_assigns_before_unassigns_witness :
    (manageDNSRecords
        [(⟨"a", "10.0.0.1"⟩,
          { isHealthy := true, isPrimary := true, lastHealthyTime := none,
            lastUnhealthyTime := none, isAssigned := true }),
         (⟨"b", "10.0.0.2"⟩,
          { isHealthy := true, isPrimary := false, lastHealthyTime := none,
            lastUnhealthyTime := none, isAssigned := false })]
        [⟨"aaaa", "10.0.0.1"⟩] 0).Pairwise
      (fun a b => a.type = ActionType.unassign → b.type = ActionType.unassign) :=
  c6_assigns_before_unassigns _ _ 0

/-- C2 at the failing input: two servers, both unhealthy past the grace period,
both assigned (initial assigned count 2, no server healthy).  The planner emits
unassign actions for both, and applying the cycle's batch empties the published
record set — the code removes records even though no server is healthy,
contradicting the claim and the README's "always keeps at least 1 IP assigned". -/
theorem c2_all_unhealthy_still_unassigns :
    planActions
        [(⟨"a", "10.0.0.1"⟩,
          { isHealthy := false, isPrimary := false, lastHealthyTime := none,
            lastUnhealthyTime := some 0, isAssigned := true }),
         (⟨"b", "10.0.0.2"⟩,
          { isHealthy := false, isPrimary := false, lastHealthyTime := none,
            lastUnhealthyTime := some 0, isAssigned := true })]
        [⟨"r1", "10.0.0.1"⟩, ⟨"r2", "10.0.0.2"⟩] 40000
      = [{ type := .unassign, server := ⟨"a", "10.0.0.1"⟩, recordId := some "r1" },
         { type := .unassign, server := ⟨"b", "10.0.0.2"⟩, recordId := some "r2" }]
    ∧ applyActions (fun ip => String.append "n" ip)
        [⟨"r1", "10.0.0.1"⟩, ⟨"r2", "10.0.0.2"⟩]
        (manageDNSRecords
          [(⟨"a", "10.0.0.1"⟩,
            { isHealthy := false, isPrimary := false, lastHealthyTime := none,
              lastUnhealthyTime := some 0, isAssigned := true }),
           (⟨"b", "10.0.0.2"⟩,
            { isHealthy := false, isPrimary := false, lastHealthyTime := none,
              lastUnhealthyTime := some 0, isAssigned := true })]
          [⟨"r1", "10.0.0.1"⟩, ⟨"r2", "10.0.0.2"⟩] 40000) = [] := by
  constructor <;> rfl

/-! ## Retry loop lemmas -/

theorem makeRequestGo_attempts_le {α : Type} (outcomes : Nat → Except JsError α) :
    ∀ (fuel attempt : Nat), (makeRequestGo outcomes attempt fuel).attempts ≤ attempt + fuel := by
  intro fuel
  induction fuel with
  | zero =>
    intro attempt
    simp [makeRequestGo]
  | succ fuel ih =>
    intro attempt
    unfold makeRequestGo
    cases houtcome : outcomes attempt
    case error e =>
      dsimp only
      by_cases hstop : (decide (attempt = maxRetries) || !isRetryableError e) = true
      · rw [if_pos hstop]
        dsimp only
        omega
      · rw [if_neg hstop]
        dsimp only
        have := ih (attempt + 1)
        omega
    case ok v =>
      dsimp only
      omega

theorem makeRequestGo_retryable {α : Type} (outcomes : Nat → Except JsError α) :
    ∀ (fuel attempt i : Nat), attempt ≤ i →
      i + 1 < (makeRequestGo outcomes attempt fuel).attempts →
      ∃ e, outcomes i = Except.error e ∧ isRetryableError e = true := by
  intro fuel
  induction fuel with
  | zero =>
    intro attempt i hle hlt
    simp [makeRequestGo] at hlt
    exact absurd hlt (by omega)
  | succ fuel ih =>
    intro attempt i hle hlt
    unfold makeRequestGo at hlt
    cases houtcome : outcomes attempt <;> rw [houtcome] at hlt <;> dsimp only at hlt
    case error e =>
      by_cases hstop : (decide (attempt = maxRetries) || !isRetryableError e) = true
      · rw [if_pos hstop] at hlt
        dsimp only at hlt
        exact absurd hlt (by omega)
      · rw [if_neg hstop] at hlt
        dsimp only at hlt
        have hretry : isRetryableError e = true := by
          rcases hr : isRetryableError e
          · rw [hr] at hstop
            simp at hstop
          · rfl
        rcases Nat.eq_or_lt_of_le hle with rfl | hgt
        · exact ⟨e, houtcome, hretry⟩
        · exact ih (attempt + 1) i hgt hlt
    case ok v =>
      exact absurd hlt (by omega)

theorem makeRequestGo_stop {α : Type} (outcomes : Nat → Except JsError α)
    (attempt fuel : Nat) (e : JsError) (houtcome : outcomes attempt = Except.error e)
    (hstop : attempt = maxRetries ∨ isRetryableError e = false) :
    makeRequestGo outcomes attempt (fuel + 1)
      = { result := Except.error e, attempts := attempt + 1, delays := [] } := by
  unfold makeRequestGo
  rw [houtcome]
  dsimp only
  have hcond : (decide (attempt = maxRetries) || !isRetryableError e) = true := by
    rcases hstop with hstop | hstop
    · simp [hstop]
    · simp [hstop]
  rw [if_pos hcond]

theorem makeRequestGo_retry_step {α : Type} (outcomes : Nat → Except JsError α)
    (attempt fuel : Nat) (e : JsError) (houtcome : outcomes attempt = Except.error e)
    (hretry : isRetryableError e = true) (hlt : attempt ≠ maxRetries) :
    makeRequestGo outcomes attempt (fuel + 1)
      = { result := (makeRequestGo outcomes (attempt + 1) fuel).result,
          attempts := (makeRequestGo outcomes (attempt + 1) fuel).attempts,
          delays := retryDelays.getD attempt 0
            :: (makeRequestGo outcomes (attempt + 1) fuel).delays } := by
  conv_lhs => unfold makeRequestGo
  rw [houtcome]
  dsimp only
  have hcond : (decide (attempt = maxRetries) || !isRetryableError e) = false := by
    simp [hlt, hretry]
  rw [if_neg (by rw [hcond]; exact Bool.false_ne_true)]

theorem makeRequestGo_ok {α : Type} (outcomes : Nat → Except JsError α)
    (attempt fuel : Nat) (v : α) (houtcome : outcomes attempt = Except.ok v) :
    makeRequestGo outcomes attempt (fuel + 1)
      = { result := Except.ok v, attempts := attempt + 1, delays := [] } := by
  unfold makeRequestGo
  rw [houtcome]

/-- C8: `makeRequest` performs at most 5 attempts; an attempt beyond the first
happens only because the previous attempt failed with a retryable error
(HTTP 429, provider code 10013, ECONNRESET, ETIMEDOUT, or a 5xx status); a
non-retryable first failure propagates immediately after 1 attempt with no
backoff delay; four retryable failures followed by a success on attempt 5
return the success after backoff delays 1s, 2s, 4s, 8s; and four retryable
failures followed by a failing fifth attempt propagate that final error after
the same delays. -/
theorem c8_makeRequest_retry_policy {α : Type} :
    (∀ outcomes : Nat → Except JsError α, (makeRequest outcomes).attempts ≤ 5) ∧
      (∀ (outcomes : Nat → Except JsError α) (i : Nat),
        i + 1 < (makeRequest outcomes).attempts →
        ∃ e, outcomes i = Except.error e ∧ isRetryableError e = true) ∧
      (∀ (outcomes : Nat → Except JsError α) (e : JsError),
        outcomes 0 = Except.error e → isRetryableError e = false →
        makeRequest outcomes = { result := Except.error e, attempts := 1, delays := [] }) ∧
      (∀ (outcomes : Nat → Except JsError α) (v : α),
        (∀ i, i < 4 → ∃ e, outcomes i = Except.error e ∧ isRetryableError e = true) →
        outcomes 4 = Except.ok v →
        makeRequest outcomes
          = { result := Except.ok v, attempts := 5, delays := [1000, 2000, 4000, 8000] }) ∧
      (∀ (outcomes : Nat → Except JsError α) (e : JsError),
        (∀ i, i < 4 → ∃ ei, outcomes i = Except.error ei ∧ isRetryableError ei = true) →
        outcomes 4 = Except.error e →
        makeRequest outcomes
          = { result := Except.error e, attempts := 5, delays := [1000, 2000, 4000, 8000] }) := by
  refine ⟨?_, ?_, ?_, ?_, ?_⟩
  · intro outcomes
    exact makeRequestGo_attempts_le outcomes (maxRetries + 1) 0
  · intro outcomes i hlt
    exact makeRequestGo_retryable outcomes (maxRetries + 1) 0 i (Nat.zero_le i) hlt
  · intro outcomes e h0 hnr
    exact makeRequestGo_stop outcomes 0 maxRetries e h0 (Or.inr hnr)
  · intro outcomes v hfail hok
    obtain ⟨e0, ho0, hr0⟩ := hfail 0 (by omega)
    obtain ⟨e1, ho1, hr1⟩ := hfail 1 (by omega)
    obtain ⟨e2, ho2, hr2⟩ := hfail 2 (by omega)
    obtain ⟨e3, ho3, hr3⟩ := hfail 3 (by omega)
    have h4 : makeRequestGo outcomes 4 1
        = { result := Except.ok v, attempts := 5, delays := [] } :=
      makeRequestGo_ok outcomes 4 0 v hok
    have h3 : makeRequestGo outcomes 3 2
        = { result := Except.ok v, attempts := 5, delays := [8000] } := by
      refine (makeRequestGo_retry_step outcomes 3 1 e3 ho3 hr3 (by decide)).trans ?_
      rw [show makeRequestGo outcomes (3 + 1) 1
        = { result := Except.ok v, attempts := 5, delays := ([] : List Nat) } from h4]
      exact rfl
    have h2 : makeRequestGo outcomes 2 3
        = { result := Except.ok v, attempts := 5, delays := [4000, 8000] } := by
      refine (makeRequestGo_retry_step outcomes 2 2 e2 ho2 hr2 (by decide)).trans ?_
      rw [show makeRequestGo outcomes (2 + 1) 2
        = { result := Except.ok v, attempts := 5, delays := [8000] } from h3]
      exact rfl
    have h1 : makeRequestGo outcomes 1 4
        = { result := Except.ok v, attempts := 5, delays := [2000, 4000, 8000] } := by
      refine (makeRequestGo_retry_step outcomes 1 3 e1 ho1 hr1 (by decide)).trans ?_
      rw [show makeRequestGo outcomes (1 + 1) 3
        = { result := Except.ok v, attempts := 5, delays := [4000, 8000] } from h2]
      exact rfl
    have h0 : makeRequestGo outcomes 0 5
        = { result := Except.ok v, attempts := 5, delays := [1000, 2000, 4000, 8000] } := by
      refine (makeRequestGo_retry_step outcomes 0 4 e0 ho0 hr0 (by decide)).trans ?_
      rw [show makeRequestGo outcomes (0 + 1) 4
        = { result := Except.ok v, attempts := 5, delays := [2000, 4000, 8000] } from h1]
      exact rfl
    exact h0
  · intro outcomes e hfail herr
    obtain ⟨e0, ho0, hr0⟩ := hfail 0 (by omega)
    obtain ⟨e1, ho1, hr1⟩ := hfail 1 (by omega)
    obtain ⟨e2, ho2, hr2⟩ := hfail 2 (by omega)
    obtain ⟨e3, ho3, hr3⟩ := hfail 3 (by omega)
    have h4 : makeRequestGo outcomes 4 1
        = { result := Except.error e, attempts := 5, delays := [] } :=
      makeRequestGo_stop outcomes 4 0 e herr (Or.inl (by decide))
    have h3 : makeRequestGo outcomes 3 2
        = { result := Except.error e, attempts := 5, delays := [8000] } := by
      refine (makeRequestGo_retry_step outcomes 3 1 e3 ho3 hr3 (by decide)).trans ?_
      rw [show makeRequestGo outcomes (3 + 1) 1
        = { result := Except.error e, attempts := 5, delays := ([] : List Nat) } from h4]
      exact rfl
    have h2 : makeRequestGo outcomes 2 3
        = { result := Except.error e, attempts := 5, delays := [4000, 8000] } := by
      refine (makeRequestGo_retry_step outcomes 2 2 e2 ho2 hr2 (by decide)).trans ?_
      rw [show makeRequestGo outcomes (2 + 1) 2
        = { result := Except.error e, attempts := 5, delays := [8000] } from h3]
      exact rfl
    have h1 : makeRequestGo outcomes 1 4
        = { result := Except.error e, attempts := 5, delays := [2000, 4000, 8000] } := by
      refine (makeRequestGo_retry_step outcomes 1 3 e1 ho1 hr1 (by decide)).trans ?_
      rw [show makeRequestGo outcomes (1 + 1) 3
        = { result := Except.error e, attempts := 5, delays := [4000, 8000] } from h2]
      exact rfl
    have h0 : makeRequestGo outcomes 0 5
        = { result := Except.error e, attempts := 5, delays := [1000, 2000, 4000, 8000] } := by
      refine (makeRequestGo_retry_step outcomes 0 4 e0 ho0 hr0 (by decide)).trans ?_
      rw [show makeRequestGo outcomes (0 + 1) 4
        = { result := Except.error e, attempts := 5, delays := [2000, 4000, 8000] } from h1]
      exact rfl
    exact h0

/-- Witness for C8 at a concrete input: a call rate-limited (HTTP 429) on
attempts 1-4 and succeeding on attempt 5 returns the success after delays
1s, 2s, 4s, 8s. -/
theorem c8_makeRequest_retry_policy_witness :
    makeRequest (fun i => if i < 4 then Except.error ⟨some 429, none, none⟩ else Except.ok 7)
      = { result := Except.ok 7, attempts := 5, delays := [1000, 2000, 4000, 8000] } :=
  c8_makeRequest_retry_policy.2.2.2.1
    (fun i => if i < 4 then Except.error ⟨some 429, none, none⟩ else Except.ok 7) 7
    (fun i hi => ⟨⟨some 429, none, none⟩, by simp [hi], by decide⟩)
    (by simp)

/-- C5: for an assigned server that is currently healthy and primary-flagged,
the planner emits an unassign action for it iff at least one healthy
non-primary server exists (the count never includes the server itself, which
is primary); no grace-period condition is involved — the equivalence holds for
every value of `lastUnhealthyTime`. -/
theorem c5_primary_demotion (st : List (Server × HealthRecord)) (records : List DNSRecord)
    (now : Int) (hips : (st.map (fun p => p.1.ip)).Nodup)
    {s : Server} {h : HealthRecord} (hmem : (s, h) ∈ st)
    (hh : h.isHealthy = true) (hp : h.isPrimary = true)
    (hassigned : s.ip ∈ recordContents records) :
    (∃ a ∈ planActions st records now, a.type = ActionType.unassign ∧ a.server.ip = s.ip) ↔
      0 < healthyNonPrimaryCount ((resyncState st records).map (fun p => p.2)) := by
  rw [hasUnassign_iff st records now hips hmem]
  constructor
  · rintro ⟨hassigned1, hU | ⟨_, _, hN⟩⟩
    · rw [shouldUnassignIP_false_of_healthy
        ((resyncState st records).map (fun p => p.2))
        { h with isAssigned := decide (s.ip ∈ recordContents records) }
        (assignedCountOf records) now hh] at hU
      cases hU
    · exact hN
  · intro hN
    exact ⟨decide_eq_true hassigned, Or.inr ⟨hp, hh, hN⟩⟩

/-- Witness for C5 at a concrete input: an assigned healthy primary server is
demoted once a healthy non-primary server exists. -/
theorem c5_primary_demotion_witness :
    ∃ a ∈ planActions
      [(⟨"a", "10.0.0.1"⟩,
        { isHealthy := true, isPrimary := true, lastHealthyTime := none,
          lastUnhealthyTime := none, isAssigned := true }),
       (⟨"b", "10.0.0.2"⟩,
        { isHealthy := true, isPrimary := false, lastHealthyTime := none,
          lastUnhealthyTime := none, isAssigned := false })]
      [⟨"aaaa", "10.0.0.1"⟩] 0,
      a.type = ActionType.unassign ∧ a.server.ip = "10.0.0.1" :=
  (c5_primary_demotion _ [⟨"aaaa", "10.0.0.1"⟩] 0 (by decide)
    (List.mem_cons_self _ _) rfl rfl (by decide)).mpr (by decide)

/-- C1: whenever at least one configured server is healthy and every planned
action of the cycle applies successfully (server IPs pairwise distinct, record
ids unique, provider-chosen ids fresh), the record set left at the end of the
cycle is non-empty: some healthy server's record is retained or created. -/
theorem c1_published_set_nonempty (st : List (Server × HealthRecord))
    (records : List DNSRecord) (now : Int) (newId : String → String)
    (hips : (st.map (fun p => p.1.ip)).Nodup)
    (hids : (records.map (fun r => r.id)).Nodup)
    (hfresh : ∀ ip, newId ip ∉ records.map (fun r => r.id))
    {s : Server} {h : HealthRecord} (hmem : (s, h) ∈ st) (hh : h.isHealthy = true) :
    applyActions newId records (manageDNSRecords st records now) ≠ [] := by
  have hperm : List.Perm (manageDNSRecords st records now) (planActions st records now) :=
    List.perm_insertionSort actionLe (planActions st records now)
  -- a healthy target server: non-primary if one exists, otherwise the sole primary
  have main : ∃ q ∈ resyncState st records, q.2.isHealthy = true ∧
      (q.2.isPrimary = false ∨
        healthyNonPrimaryCount ((resyncState st records).map (fun p => p.2)) = 0) := by
    by_cases hN : 0 < healthyNonPrimaryCount ((resyncState st records).map (fun p => p.2))
    · have hne : ∃ hr, hr ∈ ((resyncState st records).map (fun p => p.2)).filter
          (fun h => h.isHealthy && !h.isPrimary) := by
        apply List.exists_mem_of_ne_nil
        rw [← List.length_pos]
        exact hN
      rcases hne with ⟨hr, hhr⟩
      rcases List.mem_filter.mp hhr with ⟨hhr, hcond⟩
      rcases List.mem_map.mp hhr with ⟨q, hq, rfl⟩
      rw [Bool.and_eq_true, Bool.not_eq_true'] at hcond
      exact ⟨q, hq, hcond.1, Or.inl hcond.2⟩
    · refine ⟨(s, { h with isAssigned := decide (s.ip ∈ recordContents records) }),
        (mem_resyncState st records _).mpr ⟨(s, h), hmem, rfl⟩, hh, Or.inr (by omega)⟩
  rcases main with ⟨q, hq, hqh, hqp⟩
  have hnoun : ∀ a ∈ planActions st records now, a.type = ActionType.unassign →
      a.server.ip ≠ q.1.ip := by
    intro a ha hat hipeq
    rcases (mem_planActions st records now hips a).mp ha with ⟨p, hp, hap⟩
    have hserver := emitFor_server ((resyncState st records).map (fun p => p.2)) records
      (assignedCountOf records) now p a hap
    have hpq : p = q := by
      apply eq_of_mem_of_ip_eq (resyncState_ips_nodup st records hips) hp hq
      rw [← hserver, hipeq]
    rw [hpq] at hap
    rcases emitFor_mem_split _ records _ now q a hap with hfi | ⟨hG, hN, _, _, _⟩
    · rcases emitFirst_mem_split _ records _ now q a hfi with ⟨_, haeq⟩ | ⟨_, hU, _⟩
      · rw [haeq] at hat
        cases hat
      · rw [shouldUnassignIP_false_of_healthy _ q.2 _ now hqh] at hU
        cases hU
    · rcases hqp with hqp | hqp
      · simp [hqp] at hG
      · omega
  have hshape : ∀ a ∈ planActions st records now, a.type = ActionType.unassign →
      ∃ r ∈ records, r.content = a.server.ip ∧ a.recordId = some r.id := by
    intro a ha hat
    rcases (mem_planActions st records now hips a).mp ha with ⟨p, hp, hap⟩
    rcases emitFor_mem_split _ records _ now p a hap with hfi | ⟨_, _, r, hfr, haeq⟩
    · rcases emitFirst_mem_split _ records _ now p a hfi with
        ⟨_, haeq⟩ | ⟨_, _, r, hfr, haeq⟩
      · rw [haeq] at hat
        cases hat
      · rcases find?_content_prop hfr with ⟨hrmem, hrc⟩
        refine ⟨r, hrmem, ?_, by rw [haeq]⟩
        rw [haeq]
        exact hrc
    · rcases find?_content_prop hfr with ⟨hrmem, hrc⟩
      refine ⟨r, hrmem, ?_, by rw [haeq]⟩
      rw [haeq]
      exact hrc
  by_cases hassq : q.2.isAssigned = true
  · rcases (mem_resyncState st records q).mp hq with ⟨q0, hq0, hqeq⟩
    have hmemc : q.1.ip ∈ recordContents records := by
      rw [hqeq] at hassq
      rw [hqeq]
      exact of_decide_eq_true hassq
    rcases (mem_recordContents records _).mp hmemc with ⟨r0, hr0, hr0c⟩
    have hsurv : r0 ∈ applyActions newId records (manageDNSRecords st records now) := by
      apply applyActions_mem_of_mem
      · exact hr0
      · intro a ha hat hideq
        have ha' : a ∈ planActions st records now := hperm.mem_iff.mp ha
        rcases hshape a ha' hat with ⟨r1, hr1, hr1c, hr1id⟩
        have hne : a.server.ip ≠ q.1.ip := hnoun a ha' hat
        rw [hr1id] at hideq
        have hr10 : r1 = r0 :=
          List.inj_on_of_nodup_map hids hr1 hr0 (Option.some.inj hideq)
        rw [hr10, hr0c] at hr1c
        exact hne hr1c.symm
    exact List.ne_nil_of_mem hsurv
  · have hassignmem : ({ type := .assign, server := q.1, recordId := none } : Action)
        ∈ planActions st records now := by
      rw [mem_planActions st records now hips]
      refine ⟨q, hq, ?_⟩
      rw [emitFor_assign _ records _ now q hqh (Bool.eq_false_iff.mpr hassq) hqp]
      exact List.mem_singleton.mpr rfl
    have hcreated := applyActions_mem_created newId (manageDNSRecords st records now) records
      { type := .assign, server := q.1, recordId := none }
      (hperm.mem_iff.mpr hassignmem) rfl ?_
    · exact List.ne_nil_of_mem hcreated
    · intro b hb hbt hbid
      have hb' : b ∈ planActions st records now := hperm.mem_iff.mp hb
      rcases hshape b hb' hbt with ⟨r1, hr1, hr1c, hr1id⟩
      rw [hr1id] at hbid
      have : r1.id = newId q.1.ip := Option.some.inj hbid
      exact hfresh q.1.ip (this ▸ List.mem_map_of_mem (fun r => r.id) hr1)

/-- Witness for C1 at a concrete input: one healthy unassigned server and an
empty record set yield a non-empty published set after the cycle. -/
theorem c1_published_set_nonempty_witness :
    applyActions (fun ip => String.append "n" ip) []
      (manageDNSRecords
        [(⟨"a", "10.0.0.1"⟩,
          { isHealthy := true, isPrimary := false, lastHealthyTime := none,
            lastUnhealthyTime := none, isAssigned := false })] [] 0) ≠ [] :=
  c1_published_set_nonempty _ [] 0 (fun ip => String.append "n" ip) (by decide) (by decide)
    (fun ip => List.not_mem_nil _) (List.mem_cons_self _ _) rfl

theorem planActions_unassign_shape (st : List (Server × HealthRecord))
    (records : List DNSRecord) (now : Int)
    (hips : (st.map (fun p => p.1.ip)).Nodup) :
    ∀ a ∈ planActions st records now, a.type = ActionType.unassign →
      ∃ r ∈ records, r.content = a.server.ip ∧ a.recordId = some r.id := by
  intro a ha hat
  rcases (mem_planActions st records now hips a).mp ha with ⟨p, hp, hap⟩
  rcases emitFor_mem_split _ records _ now p a hap with hfi | ⟨_, _, r, hfr, haeq⟩
  · rcases emitFirst_mem_split _ records _ now p a hfi with
      ⟨_, haeq⟩ | ⟨_, _, r, hfr, haeq⟩
    · rw [haeq] at hat
      cases hat
    · rcases find?_content_prop hfr with ⟨hrmem, hrc⟩
      refine ⟨r, hrmem, ?_, by rw [haeq]⟩
      rw [haeq]
      exact hrc
  · rcases find?_content_prop hfr with ⟨hrmem, hrc⟩
    refine ⟨r, hrmem, ?_, by rw [haeq]⟩
    rw [haeq]
    exact hrc

/-- C7 counterexample: server "a" is unhealthy past the grace period and holds
the only record (floor-blocked in run 1), server "b" is healthy and unassigned.
Run 1 plans only `assign b`; with that action reflected in the ground truth and
health unchanged, re-running reconciliation at the same instant plans
`unassign a` — a non-empty action list, refuting idempotence as claimed. -/
theorem c7_counterexample :
    planActions
        [(⟨"a", "10.0.0.1"⟩,
          { isHealthy := false, isPrimary := false, lastHealthyTime := none,
            lastUnhealthyTime := some 0, isAssigned := true }),
         (⟨"b", "10.0.0.2"⟩,
          { isHealthy := true, isPrimary := false, lastHealthyTime := none,
            lastUnhealthyTime := none, isAssigned := false })]
        (applyActions (fun ip => String.append "n" ip) [⟨"ra", "10.0.0.1"⟩]
          (manageDNSRecords
            [(⟨"a", "10.0.0.1"⟩,
              { isHealthy := false, isPrimary := false, lastHealthyTime := none,
                lastUnhealthyTime := some 0, isAssigned := true }),
             (⟨"b", "10.0.0.2"⟩,
              { isHealthy := true, isPrimary := false, lastHealthyTime := none,
                lastUnhealthyTime := none, isAssigned := false })]
            [⟨"ra", "10.0.0.1"⟩] 40000)) 40000 ≠ [] := by
  decide

/-- C7 (amended): reconciliation is idempotent provided ground truth carries at
most one record per IP and run 1 floor-blocks nobody — that is, no assigned,
unhealthy, past-grace server is kept only because the cycle-initial assigned
count is ≤ 1.  Under those conditions (plus distinct server IPs, unique record
ids and fresh provider ids), re-running the planner at the same instant with
unchanged health and run 1's actions reflected in ground truth yields zero
actions. -/
theorem c7_idempotent_amended (st : List (Server × HealthRecord))
    (records : List DNSRecord) (now : Int) (newId : String → String)
    (hips : (st.map (fun p => p.1.ip)).Nodup)
    (hcontents : (records.map (fun r => r.content)).Nodup)
    (hids : (records.map (fun r => r.id)).Nodup)
    (hfresh : ∀ ip, newId ip ∉ records.map (fun r => r.id))
    (hfloor : ∀ p ∈ resyncState st records,
      ¬(p.2.isAssigned = true ∧ p.2.isHealthy = false ∧
        GRACE_PERIOD_MS ≤ now - p.2.lastUnhealthyTime.getD 0 ∧
        assignedCountOf records ≤ 1)) :
    planActions st (applyActions newId records (manageDNSRecords st records now)) now = [] := by
  have hperm1 : List.Perm (manageDNSRecords st records now) (planActions st records now) :=
    List.perm_insertionSort actionLe (planActions st records now)
  have hshape1 := planActions_unassign_shape st records now hips
  have hfresh' : ∀ r : DNSRecord, r ∈ records → ∀ ip, newId ip ≠ r.id := by
    intro r hr ip heq
    exact hfresh ip (heq ▸ List.mem_map_of_mem (fun r => r.id) hr)
  have hF2f : ∀ ip0 : String,
      ip0 ∈ recordContents (applyActions newId records (manageDNSRecords st records now)) →
      (ip0 ∈ recordContents records ∧
        ¬∃ a ∈ planActions st records now,
          a.type = ActionType.unassign ∧ a.server.ip = ip0) ∨
      (∃ a ∈ planActions st records now, a.type = ActionType.assign ∧ a.server.ip = ip0) := by
    intro ip0 hip0
    rcases (mem_recordContents _ ip0).mp hip0 with ⟨r2, hr2, hr2c⟩
    rcases applyActions_mem_cases newId (manageDNSRecords st records now) records r2 hr2 with
      hr2rec | ⟨a, ha, hat, haeq⟩
    · left
      refine ⟨(mem_recordContents records ip0).mpr ⟨r2, hr2rec, hr2c⟩, ?_⟩
      rintro ⟨a, ha, hat, haip⟩
      rcases hshape1 a ha hat with ⟨r1, hr1, hr1c, hr1id⟩
      have hr12 : r1 = r2 := by
        apply List.inj_on_of_nodup_map hcontents hr1 hr2rec
        rw [hr1c, haip, hr2c]
      have hrem := applyActions_removed newId (manageDNSRecords st records now) records r1.id
        ⟨a, hperm1.mem_iff.mpr ha, hat, hr1id⟩ (fun ip => hfresh' r1 hr1 ip) r2 hr2
      exact hrem (by rw [hr12])
    · right
      refine ⟨a, hperm1.mem_iff.mp ha, hat, ?_⟩
      rw [haeq] at hr2c
      exact hr2c
  have hF2bl : ∀ (ip0 : String) (r0 : DNSRecord), r0 ∈ records → r0.content = ip0 →
      (¬∃ a ∈ planActions st records now,
        a.type = ActionType.unassign ∧ a.server.ip = ip0) →
      ip0 ∈ recordContents (applyActions newId records (manageDNSRecords st records now)) := by
    intro ip0 r0 hr0 hr0c hnoun
    have hsurv : r0 ∈ applyActions newId records (manageDNSRecords st records now) := by
      apply applyActions_mem_of_mem
      · exact hr0
      · intro a ha hat hideq
        have ha' := hperm1.mem_iff.mp ha
        rcases hshape1 a ha' hat with ⟨r1, hr1, hr1c, hr1id⟩
        rw [hr1id] at hideq
        have hr10 : r1 = r0 := List.inj_on_of_nodup_map hids hr1 hr0 (Option.some.inj hideq)
        exact hnoun ⟨a, ha', hat, by rw [← hr1c, hr10, hr0c]⟩
    exact (mem_recordContents _ ip0).mpr ⟨r0, hsurv, hr0c⟩
  have hF2br : ∀ a ∈ planActions st records now, a.type = ActionType.assign →
      a.server.ip ∈ recordContents (applyActions newId records (manageDNSRecords st records now)) := by
    intro a ha hat
    have hcr := applyActions_mem_created newId (manageDNSRecords st records now) records a
      (hperm1.mem_iff.mpr ha) hat ?_
    · exact (mem_recordContents _ _).mpr ⟨_, hcr, rfl⟩
    · intro b hb hbt hbid
      rcases hshape1 b (hperm1.mem_iff.mp hb) hbt with ⟨r1, hr1, _, hr1id⟩
      rw [hr1id] at hbid
      exact hfresh' r1 hr1 a.server.ip (Option.some.inj hbid).symm
  rw [planActions_eq_flatMap st _ now hips, List.flatMap_eq_nil_iff]
  intro p hp
  have hp' : p ∈ resyncState st (applyActions newId records (manageDNSRecords st records now)) :=
    (List.perm_insertionSort serverLe _).mem_iff.mp hp
  rcases (mem_resyncState _ _ p).mp hp' with ⟨⟨s, h⟩, hmem, rfl⟩
  have hmem1 : (s, { h with isAssigned := decide (s.ip ∈ recordContents records) })
      ∈ resyncState st records :=
    (mem_resyncState st records _).mpr ⟨(s, h), hmem, rfl⟩
  have hnp12 :
      healthyNonPrimaryCount
        ((resyncState st (applyActions newId records (manageDNSRecords st records now))).map
          (fun p => p.2))
        = healthyNonPrimaryCount ((resyncState st records).map (fun p => p.2)) := by
    rw [healthyNonPrimaryCount_resync, healthyNonPrimaryCount_resync]
  cases hHealthy : h.isHealthy with
  | false =>
    by_cases hass2 : (s.ip ∈ recordContents
        (applyActions newId records (manageDNSRecords st records now)))
    · rcases hF2f s.ip hass2 with ⟨hmemrec, hnoun1⟩ | hasA
      · have hass1 : ({ h with isAssigned := decide (s.ip ∈ recordContents records) }
            : HealthRecord).isAssigned = true := decide_eq_true hmemrec
        have hH1 : ({ h with isAssigned := decide (s.ip ∈ recordContents records) }
            : HealthRecord).isHealthy = false := hHealthy
        by_cases hg : GRACE_PERIOD_MS ≤ now - h.lastUnhealthyTime.getD 0
        · by_cases hc : 2 ≤ assignedCountOf records
          · exact absurd ((hasUnassign_iff st records now hips hmem).mpr
              ⟨hass1, Or.inl ((shouldUnassignIP_unhealthy_iff
                ((resyncState st records).map (fun p => p.2))
                { h with isAssigned := decide (s.ip ∈ recordContents records) }
                (assignedCountOf records) now hH1).mpr ⟨hass1, hc, hg⟩)⟩) hnoun1
          · have hg1 : GRACE_PERIOD_MS ≤ now -
                ({ h with isAssigned := decide (s.ip ∈ recordContents records) }
                  : HealthRecord).lastUnhealthyTime.getD 0 := hg
            exact absurd ⟨hass1, hH1, hg1, by omega⟩ (hfloor _ hmem1)
        · apply emitFor_unhealthy_quiet
          · exact hHealthy
          · by_cases hU : shouldUnassignIP
                ((resyncState st
                  (applyActions newId records (manageDNSRecords st records now))).map
                    (fun p => p.2))
                { h with isAssigned := decide (s.ip ∈ recordContents
                    (applyActions newId records (manageDNSRecords st records now))) }
                (assignedCountOf (applyActions newId records (manageDNSRecords st records now)))
                now = true
            · have hH2 : ({ h with isAssigned := decide (s.ip ∈ recordContents
                  (applyActions newId records (manageDNSRecords st records now))) }
                  : HealthRecord).isHealthy = false := hHealthy
              rcases (shouldUnassignIP_unhealthy_iff
                ((resyncState st
                  (applyActions newId records (manageDNSRecords st records now))).map
                    (fun p => p.2))
                { h with isAssigned := decide (s.ip ∈ recordContents
                    (applyActions newId records (manageDNSRecords st records now))) }
                (assignedCountOf (applyActions newId records (manageDNSRecords st records now)))
                now hH2).mp hU with ⟨_, _, hg2⟩
              have hg2' : GRACE_PERIOD_MS ≤ now - h.lastUnhealthyTime.getD 0 := hg2
              exact absurd hg2' hg
            · exact Bool.eq_false_iff.mpr hU
      · have hA1 := (hasAssign_iff st records now hips hmem).mp hasA
        rcases (shouldAssignIP_true_iff
          ((resyncState st records).map (fun p => p.2))
          { h with isAssigned := decide (s.ip ∈ recordContents records) }).mp hA1 with
          ⟨hh1, _, _⟩
        have hh1' : h.isHealthy = true := hh1
        rw [hHealthy] at hh1'
        cases hh1'
    · apply emitFor_unhealthy_quiet
      · exact hHealthy
      · apply shouldUnassignIP_false_of_unassigned
        exact decide_eq_false hass2
  | true =>
    by_cases hass2 : (s.ip ∈ recordContents
        (applyActions newId records (manageDNSRecords st records now)))
    · by_cases hp2 : h.isPrimary = true
      · by_cases hN : 0 < healthyNonPrimaryCount
            ((resyncState st
              (applyActions newId records (manageDNSRecords st records now))).map
                (fun p => p.2))
        · exfalso
          have hN1 : 0 < healthyNonPrimaryCount
              ((resyncState st records).map (fun p => p.2)) := by
            rw [← hnp12]
            exact hN
          rcases hF2f s.ip hass2 with ⟨hmemrec, hnoun1⟩ | hasA
          · have hass1 : ({ h with isAssigned := decide (s.ip ∈ recordContents records) }
                : HealthRecord).isAssigned = true := decide_eq_true hmemrec
            exact hnoun1 ((hasUnassign_iff st records now hips hmem).mpr
              ⟨hass1, Or.inr ⟨hp2, hHealthy, hN1⟩⟩)
          · have hA1 := (hasAssign_iff st records now hips hmem).mp hasA
            rcases (shouldAssignIP_true_iff
              ((resyncState st records).map (fun p => p.2))
              { h with isAssigned := decide (s.ip ∈ recordContents records) }).mp hA1 with
              ⟨_, _, hcase | hcase⟩
            · have hp' : h.isPrimary = false := hcase
              rw [hp2] at hp'
              cases hp'
            · omega
        · apply emitFor_healthy_assigned_quiet
          · exact hHealthy
          · exact decide_eq_true hass2
          · right
            omega
      · apply emitFor_healthy_assigned_quiet
        · exact hHealthy
        · exact decide_eq_true hass2
        · left
          exact Bool.eq_false_iff.mpr hp2
    · have hnoassign : ¬∃ a ∈ planActions st records now,
          a.type = ActionType.assign ∧ a.server.ip = s.ip := by
        rintro ⟨a, ha, hat, haip⟩
        exact hass2 (haip ▸ hF2br a ha hat)
      have hnA1 : shouldAssignIP ((resyncState st records).map (fun p => p.2))
          { h with isAssigned := decide (s.ip ∈ recordContents records) } = false := by
        by_cases hA : shouldAssignIP ((resyncState st records).map (fun p => p.2))
            { h with isAssigned := decide (s.ip ∈ recordContents records) } = true
        · exact absurd ((hasAssign_iff st records now hips hmem).mpr hA) hnoassign
        · exact Bool.eq_false_iff.mpr hA
      have hnA1' : ¬(shouldAssignIP ((resyncState st records).map (fun p => p.2))
          { h with isAssigned := decide (s.ip ∈ recordContents records) } = true) :=
        Bool.eq_false_iff.mp hnA1
      have hsplit : ({ h with isAssigned := decide (s.ip ∈ recordContents records) }
            : HealthRecord).isAssigned = true ∨
          (h.isPrimary = true ∧
            0 < healthyNonPrimaryCount ((resyncState st records).map (fun p => p.2))) := by
        by_cases ha1 : ({ h with isAssigned := decide (s.ip ∈ recordContents records) }
            : HealthRecord).isAssigned = true
        · exact Or.inl ha1
        · right
          by_cases hp2 : h.isPrimary = true
          · by_cases hn1 : 0 < healthyNonPrimaryCount
                ((resyncState st records).map (fun p => p.2))
            · exact ⟨hp2, hn1⟩
            · exact absurd ((shouldAssignIP_true_iff
                ((resyncState st records).map (fun p => p.2))
                { h with isAssigned := decide (s.ip ∈ recordContents records) }).mpr
                ⟨hHealthy, Bool.eq_false_iff.mpr ha1, Or.inr (by omega)⟩) hnA1'
          · have hp2' : h.isPrimary = false := Bool.eq_false_iff.mpr hp2
            exact absurd ((shouldAssignIP_true_iff
              ((resyncState st records).map (fun p => p.2))
              { h with isAssigned := decide (s.ip ∈ recordContents records) }).mpr
              ⟨hHealthy, Bool.eq_false_iff.mpr ha1, Or.inl hp2'⟩) hnA1'
      rcases hsplit with ha1 | ⟨hp2, hn1⟩
      · rcases (mem_recordContents records s.ip).mp (of_decide_eq_true ha1) with
          ⟨r0, hr0, hr0c⟩
        have hasUn : ∃ a ∈ planActions st records now,
            a.type = ActionType.unassign ∧ a.server.ip = s.ip := by
          by_contra hnoUn
          exact hass2 (hF2bl s.ip r0 hr0 hr0c hnoUn)
        rcases (hasUnassign_iff st records now hips hmem).mp hasUn with
          ⟨_, hU | ⟨hp2, _, hn1⟩⟩
        · have hH1 : ({ h with isAssigned := decide (s.ip ∈ recordContents records) }
              : HealthRecord).isHealthy = true := hHealthy
          exact absurd hU (Bool.eq_false_iff.mp
            (shouldUnassignIP_false_of_healthy
              ((resyncState st records).map (fun p => p.2))
              { h with isAssigned := decide (s.ip ∈ recordContents records) }
              (assignedCountOf records) now hH1))
        · apply emitFor_healthy_unassigned_primary
          · exact decide_eq_false hass2
          · exact hp2
          · rw [hnp12]
            exact hn1
      · apply emitFor_healthy_unassigned_primary
        · exact decide_eq_false hass2
        · exact hp2
        · rw [hnp12]
          exact hn1

/-- Witness for C7 (amended) at a concrete input: a healthy assigned server,
its single record, no floor-blocked server — the replan is empty. -/
theorem c7_idempotent_amended_witness :
    planActions
      [(⟨"a", "10.0.0.1"⟩,
        { isHealthy := true, isPrimary := false, lastHealthyTime := none,
          lastUnhealthyTime := none, isAssigned := true })]
      (applyActions (fun ip => String.append "n" ip) [⟨"", "10.0.0.1"⟩]
        (manageDNSRecords
          [(⟨"a", "10.0.0.1"⟩,
            { isHealthy := true, isPrimary := false, lastHealthyTime := none,
              lastUnhealthyTime := none, isAssigned := true })]
          [⟨"", "10.0.0.1"⟩] 0)) 0 = [] :=
  c7_idempotent_amended _ [⟨"", "10.0.0.1"⟩] 0 (fun ip => String.append "n" ip)
    (by decide) (by decide) (by decide)
    (by
      intro ip hmem
      have heq : String.append "n" ip = "" := List.mem_singleton.mp hmem
      have hlen : (("n" : String) ++ ip).length = ("" : String).length := by
        rw [show ("n" : String) ++ ip = "" from heq]
      rw [String.length_append] at hlen
      have h1 : ("n" : String).length = 1 := rfl
      have h0 : ("" : String).length = 0 := rfl
      omega)
    (by decide)

end ZHealth
